import Mathlib

/-!
# Verification of the periph extra d2xx FTDI driver (hostextra/d2xx)

Shallow embedding of the protocol-translation layer of the d2xx package:
the MPSSE command encoder (mpsse.go), the I²C bus engine (i2c.go), the SPI
engines (spi.go), the bring-up verification (mpsse.go, d2xx.go) and the bus
claim logic (dev.go).  Machine integers are modelled as Nat (all byte and
length values are nonnegative) with explicit wrap-around where the source
converts to byte; physic.Frequency (an int64 counting microhertz) is
modelled as Nat since every frequency handled by this code is nonnegative.
Go runtime panics (integer division by zero, slice bounds out of range) are
modelled explicitly by a dedicated outcome constructor.
-/

namespace D2xx

/-- Outcome of running a Go function: a runtime panic, a returned error
value, or a successful result. -/
inductive GoOutcome (α : Type) where
  | panic : GoOutcome α
  | err : String → GoOutcome α
  | ok : α → GoOutcome α
deriving Repr, DecidableEq

/-- Go integer division on nonnegative int64 values: `a / b` panics when
`b = 0`, which is modelled as `none`. -/
def goDiv (a b : Nat) : Option Nat := if b = 0 then none else some (a / b)

/-- Conversion to Go byte of a (possibly negative) int64 value: two's
complement truncation to 8 bits, i.e. the value modulo 256. -/
def byteOfInt (x : Int) : Nat := (x % 256).toNat

/-- physic.MicroHertz: the unit of physic.Frequency. -/
def microHertz : Nat := 1
/-- physic.Hertz in microhertz. -/
def hertz : Nat := 1000000
/-- physic.KiloHertz in microhertz. -/
def kiloHertz : Nat := 1000000000
/-- physic.MegaHertz in microhertz. -/
def megaHertz : Nat := 1000000000000
/-- physic.GigaHertz in microhertz. -/
def gigaHertz : Nat := 1000000000000000

/-! ## MPSSE opcode constants (mpsse.go)  -/

/-- Enable output, default on +VE (Rise). -/
def dataOut : Nat := 0x10
/-- Enable input, default on +VE (Rise). -/
def dataIn : Nat := 0x20
/-- Output on falling edge instead of rising. -/
def dataOutFall : Nat := 0x01
/-- Input on falling edge instead of rising. -/
def dataInFall : Nat := 0x04
/-- LSB first instead of MSB first. -/
def dataLSBF : Nat := 0x08
/-- Bit granularity instead of byte granularity. -/
def dataBit : Nat := 0x02
/-- Tristate (open collector) mode command. -/
def dataTristate : Nat := 0x9E
/-- GPIO set on the D bank: op, then two payload bytes. -/
def gpioSetD : Nat := 0x80
/-- GPIO set on the C bank. -/
def gpioSetC : Nat := 0x82
/-- Disable the 5x clock divisor (30MHz base clock). -/
def clock30MHz : Nat := 0x8A
/-- Enable the 5x clock divisor (6MHz base clock). -/
def clock6MHz : Nat := 0x8B
/-- Set the clock divisor: op, valueL-1, valueH-1. -/
def clockSetDivisor : Nat := 0x86
/-- 3 phase data clocking, needed for I²C. -/
def clock3Phase : Nat := 0x8C
/-- Normal 2 phase data clocking. -/
def clock2Phase : Nat := 0x8D
/-- Flush the buffer back to the host. -/
def flush : Nat := 0x87

/-- gpio.Edge from periph conn/gpio. -/
inductive Edge where
  | noEdge : Edge
  | rising : Edge
  | falling : Edge
  | both : Edge
deriving Repr, DecidableEq

/-! ## Clock divisor computation: device.mpsseClock (mpsse.go lines 224-239)

```go
func (d *device) mpsseClock(f physic.Frequency) (physic.Frequency, error) {
    clk := clock30MHz
    base := 30 * physic.MegaHertz
    div := base / f
    if div >= 65536 {
        clk = clock6MHz
        base /= 5
        div = base / f
        if div >= 65536 {
            return 0, errors.New("d2xx: clock frequency is too low")
        }
    }
    b := [...]byte{clk, clockSetDivisor, byte(div - 1), byte((div - 1) >> 8)}
    _, err := d.write(b[:])
    return base / div, err
}
```
-/

/-- `device.mpsseClock`: picks the 30MHz base (or the 6MHz base when the
divisor would overflow 16 bits), computes the integer divisor `div = base / f`
(truncating division), writes the 4 command bytes and returns the achieved
frequency `base / div` together with the written bytes.  `f = 0` (and
`div = 0`, reachable when `f > base`) hits a Go division by zero, i.e. a
runtime panic. -/
def mpsseClock (f : Nat) : GoOutcome (Nat × List Nat) :=
  let base := 30 * megaHertz
  match goDiv base f with
  | none => .panic
  | some div =>
    if 65536 ≤ div then
      let base := base / 5
      match goDiv base f with
      | none => .panic
      | some div =>
        if 65536 ≤ div then .err "d2xx: clock frequency is too low"
        else
          let b := [clock6MHz, clockSetDivisor,
                    byteOfInt ((div : Int) - 1), byteOfInt (((div : Int) - 1) / 256)]
          match goDiv base div with
          | none => .panic
          | some a => .ok (a, b)
    else
      let b := [clock30MHz, clockSetDivisor,
                byteOfInt ((div : Int) - 1), byteOfInt (((div : Int) - 1) / 256)]
      match goDiv base div with
      | none => .panic
      | some a => .ok (a, b)

/-- With a truncating divisor the achieved rate can only be at or above the
request: `f ≤ n / (n / f)` whenever `0 < f ≤ n`. -/
theorem le_div_div_of_le {f n : Nat} (hf : 0 < f) (hfn : f ≤ n) : f ≤ n / (n / f) := by
  have hq : 0 < n / f := Nat.div_pos hfn hf
  refine (Nat.le_div_iff_mul_le hq).mpr ?_
  calc f * (n / f) = n / f * f := Nat.mul_comm _ _
    _ ≤ n := Nat.div_mul_le_self n f

/-- C1 counterexample: at the in-range target 20MHz the divisor is
`30MHz / 20MHz = 1`, so mpsseClock programs divisor 1 and returns an achieved
frequency of 30MHz, which exceeds the 20MHz target.  This falsifies the claim
that the achieved frequency never exceeds the target. -/
theorem mpsseClock_twentyMHz_counterexample :
    mpsseClock (20 * megaHertz) =
      .ok (30 * megaHertz, [clock30MHz, clockSetDivisor, 0, 0]) ∧
    20 * megaHertz < 30 * megaHertz := by
  exact ⟨by decide, by decide⟩

/-- C1 (amended): for every clock target between 92Hz and 30MHz, mpsseClock
succeeds and returns an achieved frequency that is at least (not at most) the
target: the integer divisor is the floor of base/target, so the achieved rate
never falls below the requested rate though it may exceed it. -/
theorem mpsseClock_achieved_ge_target (f : Nat) (h1 : 92 * hertz ≤ f)
    (h2 : f ≤ 30 * megaHertz) :
    ∃ a b, mpsseClock f = .ok (a, b) ∧ f ≤ a := by
  have hf : f ≠ 0 := by simp only [hertz] at h1; omega
  have hfpos : 0 < f := Nat.pos_of_ne_zero hf
  by_cases hd : 65536 ≤ 30 * megaHertz / f
  · -- 6MHz base branch: the 30MHz divisor would overflow 16 bits.
    have hf6 : f ≤ 30 * megaHertz / 5 := by
      have h65 := (Nat.le_div_iff_mul_le hfpos).mp hd
      simp only [megaHertz] at h65 ⊢
      omega
    have hmono : 30 * megaHertz / 5 / f ≤ 30 * megaHertz / 5 / (92 * hertz) :=
      Nat.div_le_div_left h1 (by simp [hertz])
    have hval : 30 * megaHertz / 5 / (92 * hertz) = 65217 := by decide
    have hd2 : ¬ 65536 ≤ 30 * megaHertz / 5 / f := by omega
    have hdivpos : 0 < 30 * megaHertz / 5 / f := Nat.div_pos hf6 hfpos
    refine ⟨30 * megaHertz / 5 / (30 * megaHertz / 5 / f),
      [clock6MHz, clockSetDivisor,
        byteOfInt (((30 * megaHertz / 5 / f : Nat) : Int) - 1),
        byteOfInt ((((30 * megaHertz / 5 / f : Nat) : Int) - 1) / 256)], ?_, ?_⟩
    · simp only [mpsseClock, goDiv, if_neg hf, if_pos hd, if_neg hd2,
        if_neg (Nat.pos_iff_ne_zero.mp hdivpos)]
    · exact le_div_div_of_le hfpos hf6
  · -- 30MHz base branch.
    have hdivpos : 0 < 30 * megaHertz / f := Nat.div_pos h2 hfpos
    refine ⟨30 * megaHertz / (30 * megaHertz / f),
      [clock30MHz, clockSetDivisor,
        byteOfInt (((30 * megaHertz / f : Nat) : Int) - 1),
        byteOfInt ((((30 * megaHertz / f : Nat) : Int) - 1) / 256)], ?_, ?_⟩
    · simp only [mpsseClock, goDiv, if_neg hf, if_neg hd,
        if_neg (Nat.pos_iff_ne_zero.mp hdivpos)]
    · exact le_div_div_of_le hfpos h2

/-- C1 witness: the amended theorem applied at the concrete target 1kHz. -/
theorem mpsseClock_achieved_ge_target_witness :
    ∃ a b, mpsseClock (1000 * hertz) = .ok (a, b) ∧ 1000 * hertz ≤ a :=
  mpsseClock_achieved_ge_target (1000 * hertz) (by decide) (by decide)

/-! ## Rich-tier SPI port: spiMPSEEPort.Connect (spi.go lines 52-109)

```go
func (s *spiMPSEEPort) Connect(f physic.Frequency, m spi.Mode, bits int) (spi.Conn, error) {
    if f > physic.GigaHertz {
        return nil, fmt.Errorf("d2xx: invalid speed %s; maximum supported clock is 30MHz", f)
    }
    if f > 30*physic.MegaHertz {
        f = 30 * physic.MegaHertz
    }
    if f < 100*physic.Hertz {
        return nil, fmt.Errorf("d2xx: invalid speed %s; minimum supported clock is 100Hz; ...", f)
    }
    if bits&7 != 0 { ... }
    if bits != 8 { ... }
    ... flag extraction, halfDuplex / mode checks ...
    if s.maxFreq == 0 || f < s.maxFreq {
        if _, err := s.c.f.h.mpsseClock(s.maxFreq); err != nil {
            return nil, err
        }
        s.maxFreq = f
    }
    ... b := 0; if !noCS { b |= cs }; if clkActiveLow { b |= clk }
    if err := s.c.f.h.mpsseDBus(mosi|clk|cs, b); err != nil { ... }
    s.c.f.usingSPI = true
    return &s.c, nil
}
```
-/

/-- The frequency validation and clamping stage of spiMPSEEPort.Connect
(spi.go lines 53-63): above 1GHz is rejected, (1GHz ≥) f > 30MHz is clamped
down to 30MHz, below 100Hz is rejected, anything else is passed through. -/
def spiConnectClampFreq (f : Nat) : Except String Nat :=
  if gigaHertz < f then
    .error "d2xx: invalid speed; maximum supported clock is 30MHz"
  else
    let f := if 30 * megaHertz < f then 30 * megaHertz else f
    if f < 100 * hertz then
      .error "d2xx: invalid speed; minimum supported clock is 100Hz; did you forget to multiply by physic.MegaHertz?"
    else .ok f

/-- `spiMPSEEPort.Connect`.  `maxFreq` is the cached `s.maxFreq` (0 before the
first Connect/LimitSpeed).  The spi.Mode flag bits NoCS and HalfDuplex are
passed pre-extracted as booleans and `m` is the remaining mode number 0-3.
Returns the trace of byte strings written to the device, paired with either a
runtime panic, an error, or the new cached `maxFreq` on success.  Note the
source passes the stale `s.maxFreq` (not the validated `f`) to mpsseClock. -/
def spiMPSEEPortConnect (maxFreq f m bits : Nat) (noCS halfDuplex : Bool) :
    List (List Nat) × GoOutcome Nat :=
  match spiConnectClampFreq f with
  | .error e => ([], .err e)
  | .ok f =>
    if bits &&& 7 ≠ 0 then ([], .err "d2xx: bits must be multiple of 8")
    else if bits ≠ 8 then ([], .err "d2xx: implement bits per word above 8")
    else if halfDuplex then
      ([], .err "d2xx: spi.HalfDuplex is not yet supported (implementing wouldn't be too hard, please submit a PR")
    else if 3 < m then ([], .err "d2xx: unknown spi mode")
    else
      let clk : Nat := 1      -- D0
      let mosi : Nat := 2     -- D1
      let cs : Nat := 8       -- D3
      let clkActiveLow := m &&& 2 ≠ 0   -- CPOL=1
      let b := (if noCS then 0 else cs) ||| (if clkActiveLow then clk else 0)
      let dbusCmd := [gpioSetD, mosi ||| clk ||| cs, b]
      if maxFreq = 0 ∨ f < maxFreq then
        match mpsseClock maxFreq with
        | .panic => ([], .panic)
        | .err e => ([], .err e)
        | .ok (_, clockCmd) => ([clockCmd, dbusCmd], .ok f)
      else ([dbusCmd], .ok maxFreq)

/-- C6 counterexample: a 2GHz request is above the 30MHz ceiling, yet Connect
rejects it outright (before any device I/O) instead of clamping it down to
30MHz and accepting it. -/
theorem spiConnect_twoGHz_rejected_counterexample :
    spiMPSEEPortConnect 1000000000 (2 * gigaHertz) 0 8 false false =
      ([], .err "d2xx: invalid speed; maximum supported clock is 30MHz") ∧
    30 * megaHertz < 2 * gigaHertz := ⟨by decide, by decide⟩

/-- C6 (amended): a requested frequency above 30MHz and at most 1GHz passes
validation clamped down to exactly 30MHz (and Connect accepts it without any
clock reprogramming whenever a positive cached frequency of at most 30MHz is
already in effect); a request above 1GHz is rejected; a request below 100Hz is
rejected with a hard error, in both rejection cases before any device I/O is
issued (the emitted trace is empty). -/
theorem spiConnect_clamp_ceiling_reject_floor (maxFreq f m : Nat)
    (noCS : Bool) :
    (30 * megaHertz < f → f ≤ gigaHertz →
      spiConnectClampFreq f = .ok (30 * megaHertz)) ∧
    (30 * megaHertz < f → f ≤ gigaHertz → 0 < maxFreq → maxFreq ≤ 30 * megaHertz →
      m ≤ 3 →
      spiMPSEEPortConnect maxFreq f m 8 noCS false =
        ([[gpioSetD, 2 ||| 1 ||| 8,
           (if noCS then 0 else 8) ||| (if m &&& 2 ≠ 0 then 1 else 0)]],
         .ok maxFreq)) ∧
    (gigaHertz < f →
      spiMPSEEPortConnect maxFreq f m 8 noCS false =
        ([], .err "d2xx: invalid speed; maximum supported clock is 30MHz")) ∧
    (f < 100 * hertz →
      spiMPSEEPortConnect maxFreq f m 8 noCS false =
        ([], .err "d2xx: invalid speed; minimum supported clock is 100Hz; did you forget to multiply by physic.MegaHertz?")) := by
  refine ⟨?_, ?_, ?_, ?_⟩
  · intro hlo hhi
    have hgig : ¬ gigaHertz < f := not_lt.mpr hhi
    simp only [spiConnectClampFreq, if_neg hgig, if_pos hlo]
    have : ¬ (30 * megaHertz < 100 * hertz) := by decide
    simp only [if_neg this]
  · intro hlo hhi hpos hle hm
    have hgig : ¬ gigaHertz < f := not_lt.mpr hhi
    have hfloor : ¬ (30 * megaHertz < 100 * hertz) := by decide
    have hm3 : ¬ (3 < m) := not_lt.mpr hm
    have hmf : ¬ (maxFreq = 0 ∨ 30 * megaHertz < maxFreq) := by
      rintro (h0 | hgt) <;> omega
    simp only [spiMPSEEPortConnect, spiConnectClampFreq, if_neg hgig, if_pos hlo,
      if_neg hfloor]
    simp [hm3, hmf]
    decide
  · intro hhi
    simp only [spiMPSEEPortConnect, spiConnectClampFreq, if_pos hhi]
  · intro hlo
    have hgig : ¬ gigaHertz < f := by
      simp only [hertz] at hlo
      simp only [gigaHertz]
      omega
    have h30 : ¬ (30 * megaHertz < f) := by
      simp only [hertz] at hlo
      simp only [megaHertz]
      omega
    simp only [spiMPSEEPortConnect, spiConnectClampFreq, if_neg hgig, if_neg h30,
      if_pos hlo]

/-- C6 witness: the amended theorem applied at concrete inputs: 50MHz is
clamped and accepted, 2GHz is rejected, 50Hz is rejected. -/
theorem spiConnect_clamp_ceiling_reject_floor_witness :
    spiConnectClampFreq (50 * megaHertz) = .ok (30 * megaHertz) ∧
    spiMPSEEPortConnect (30 * megaHertz) (50 * megaHertz) 0 8 false false =
      ([[gpioSetD, 2 ||| 1 ||| 8,
         (if false then 0 else 8) ||| (if 0 &&& 2 ≠ 0 then 1 else 0)]],
       .ok (30 * megaHertz)) ∧
    spiMPSEEPortConnect 0 (2 * gigaHertz) 0 8 false false =
      ([], .err "d2xx: invalid speed; maximum supported clock is 30MHz") ∧
    spiMPSEEPortConnect 0 (50 * hertz) 0 8 false false =
      ([], .err "d2xx: invalid speed; minimum supported clock is 100Hz; did you forget to multiply by physic.MegaHertz?") :=
  ⟨(spiConnect_clamp_ceiling_reject_floor 0 (50 * megaHertz) 0 false).1
      (by decide) (by decide),
   (spiConnect_clamp_ceiling_reject_floor (30 * megaHertz) (50 * megaHertz) 0 false).2.1
      (by decide) (by decide) (by decide) (by decide) (by decide),
   (spiConnect_clamp_ceiling_reject_floor 0 (2 * gigaHertz) 0 false).2.2.1
      (by decide),
   (spiConnect_clamp_ceiling_reject_floor 0 (50 * hertz) 0 false).2.2.2
      (by decide)⟩

/-- C7: on the very first Connect after the port is opened (cached
`s.maxFreq = 0`), a fully valid request (1MHz, mode 0, 8 bits) makes Connect
pass the stale zero frequency into mpsseClock, whose division `base / f`
divides by zero: a Go runtime panic.  Had Connect passed the validated
frequency instead (as LimitSpeed does), the clock computation would have
succeeded, as the second conjunct shows. -/
theorem spiConnect_first_call_panics :
    spiMPSEEPortConnect 0 megaHertz 0 8 false false = ([], .panic) ∧
    mpsseClock megaHertz =
      .ok (megaHertz, [clock30MHz, clockSetDivisor, 29, 0]) := ⟨by decide, by decide⟩

/-! ## Shift-data command encoding: device.mpsseTx and device.mpsseTxShort
(mpsse.go lines 244-330)

```go
func (d *device) mpsseTx(w, r []byte, ew, er gpio.Edge, lsbf bool) error {
    op := byte(0)
    if lsbf { op |= dataLSBF }
    l := len(w)
    if len(w) != 0 {
        if len(w) > 65536 { return errors.New("d2xx: write buffer too long; max 65536") }
        op |= dataOut
        if ew == gpio.FallingEdge { op |= dataOutFall }
    }
    if len(r) != 0 {
        if len(r) > 65536 { return errors.New("d2xx: read buffer too long; max 65536") }
        op |= dataIn
        if er == gpio.FallingEdge { op |= dataInFall }
        if l != 0 && len(r) != l { return errors.New("d2xx: mismatched buffer lengths") }
        l = len(r)
    }
    cmd := []byte{op, byte(l - 1), byte((l - 1) >> 8)}
    if _, err := d.write(append(cmd, w...)); err != nil { return err }
    ...
}
```
The in-place `op |=` accumulation is written as conditional ORs producing the
same value; the length checks are hoisted before the OR accumulation, which
does not change which error is returned (the source checks w before r too).
-/

/-- `device.mpsseTx`: multi-byte shift command.  Emits
`[op, byte(l-1), byte((l-1)>>8)] ++ w` where `l` is the transfer byte count;
the opcode collects the direction/edge/bit-order flag bits. -/
def mpsseTx (w r : List Nat) (ew er : Edge) (lsbf : Bool) :
    Except String (List Nat) :=
  let op : Nat := if lsbf then dataLSBF else 0
  if w.length ≠ 0 ∧ 65536 < w.length then
    .error "d2xx: write buffer too long; max 65536"
  else if r.length ≠ 0 ∧ 65536 < r.length then
    .error "d2xx: read buffer too long; max 65536"
  else if w.length ≠ 0 ∧ r.length ≠ 0 ∧ r.length ≠ w.length then
    .error "d2xx: mismatched buffer lengths"
  else
    let op := if w.length ≠ 0 then
        op ||| dataOut ||| (if ew = .falling then dataOutFall else 0) else op
    let op := if r.length ≠ 0 then
        op ||| dataIn ||| (if er = .falling then dataInFall else 0) else op
    let l := if r.length ≠ 0 then r.length else w.length
    .ok ([op, byteOfInt ((l : Int) - 1), byteOfInt (((l : Int) - 1) / 256)] ++ w)

/-- `device.mpsseTxShort`: 1 to 8 bit shift command.  Emits `[op, byte(l-1)]`
followed by the data byte when writing; `l` is the bit count. -/
def mpsseTxShort (x : Nat) (wbits rbits : Nat) (ew er : Edge) (lsbf : Bool) :
    Except String (List Nat) :=
  let op : Nat := dataBit ||| (if lsbf then dataLSBF else 0)
  if wbits ≠ 0 ∧ 8 < wbits then
    .error "d2xx: write buffer too long; max 8"
  else if rbits ≠ 0 ∧ 8 < rbits then
    .error "d2xx: read buffer too long; max 8"
  else if wbits ≠ 0 ∧ rbits ≠ 0 ∧ rbits ≠ wbits then
    .error "d2xx: mismatched buffer lengths"
  else
    let op := if wbits ≠ 0 then
        op ||| dataOut ||| (if ew = .falling then dataOutFall else 0) else op
    let op := if rbits ≠ 0 then
        op ||| dataIn ||| (if er = .falling then dataInFall else 0) else op
    let l := if rbits ≠ 0 then rbits else wbits
    let cmd := [op, byteOfInt ((l : Int) - 1)]
    .ok (if wbits ≠ 0 then cmd ++ [x] else cmd)

/-- C8: the shift-data command encoder emits, for multi-byte transfers, a
length-prefixed opcode frame whose 16-bit little-endian length field holds the
byte count minus one (rejecting buffers longer than 65536 bytes and mismatched
write/read lengths), and for 1-8 bit transfers a short-form opcode whose
length field is the bit count minus one (rejecting more than 8 bits); edge
selection and bit order are flag bits of the single opcode byte. -/
theorem mpsse_shift_encoding (w r : List Nat) (ew er : Edge) (lsbf : Bool)
    (wb x : Nat) :
    (1 ≤ w.length → w.length ≤ 65536 → r.length = w.length →
      ∃ op lo hi, mpsseTx w r ew er lsbf = .ok (op :: lo :: hi :: w) ∧
        lo + 256 * hi = w.length - 1 ∧
        (op &&& dataLSBF ≠ 0 ↔ lsbf = true) ∧
        (op &&& dataOutFall ≠ 0 ↔ ew = .falling) ∧
        (op &&& dataInFall ≠ 0 ↔ er = .falling) ∧
        op &&& dataBit = 0 ∧ op &&& dataOut ≠ 0 ∧ op &&& dataIn ≠ 0) ∧
    (65536 < w.length →
      mpsseTx w r ew er lsbf = .error "d2xx: write buffer too long; max 65536") ∧
    (w.length ≠ 0 → w.length ≤ 65536 → r.length ≠ 0 → r.length ≤ 65536 →
      r.length ≠ w.length →
      mpsseTx w r ew er lsbf = .error "d2xx: mismatched buffer lengths") ∧
    (1 ≤ wb → wb ≤ 8 →
      ∃ op, mpsseTxShort x wb 0 ew er lsbf = .ok [op, wb - 1, x] ∧
        op &&& dataBit ≠ 0 ∧
        (op &&& dataLSBF ≠ 0 ↔ lsbf = true) ∧
        (op &&& dataOutFall ≠ 0 ↔ ew = .falling)) ∧
    (8 < wb →
      mpsseTxShort x wb 0 ew er lsbf =
        .error "d2xx: write buffer too long; max 8") := by
  refine ⟨?_, ?_, ?_, ?_, ?_⟩
  · intro h1 h2 hr
    have hc1 : ¬ (w.length ≠ 0 ∧ 65536 < w.length) := by omega
    have hc2 : ¬ (r.length ≠ 0 ∧ 65536 < r.length) := by omega
    have hc3 : ¬ (w.length ≠ 0 ∧ r.length ≠ 0 ∧ r.length ≠ w.length) := by omega
    have hwne : w.length ≠ 0 := by omega
    have hrne : r.length ≠ 0 := by omega
    refine ⟨(if lsbf then dataLSBF else 0) ||| dataOut |||
        (if ew = .falling then dataOutFall else 0) ||| dataIn |||
        (if er = .falling then dataInFall else 0),
      byteOfInt ((w.length : Int) - 1),
      byteOfInt (((w.length : Int) - 1) / 256), ?_, ?_, ?_, ?_, ?_, ?_, ?_, ?_⟩
    · simp only [mpsseTx, if_neg hc1, if_neg hc2, if_neg hc3, if_pos hwne,
        if_pos hrne, hr, List.cons_append, List.nil_append]
      simp
    · simp only [byteOfInt]
      omega
    all_goals
      cases lsbf <;> cases ew <;> cases er <;> simp <;> decide
  · intro h
    have hc1 : w.length ≠ 0 ∧ 65536 < w.length := by omega
    simp only [mpsseTx, if_pos hc1]
  · intro h1 h2 h3 h4 h5
    have hc1 : ¬ (w.length ≠ 0 ∧ 65536 < w.length) := by omega
    have hc2 : ¬ (r.length ≠ 0 ∧ 65536 < r.length) := by omega
    have hc3 : w.length ≠ 0 ∧ r.length ≠ 0 ∧ r.length ≠ w.length := ⟨h1, h3, h5⟩
    simp only [mpsseTx, if_neg hc1, if_neg hc2, if_pos hc3]
  · intro h1 h2
    have hc1 : ¬ (wb ≠ 0 ∧ 8 < wb) := by omega
    have hc2 : ¬ ((0 : Nat) ≠ 0 ∧ 8 < (0 : Nat)) := by omega
    have hc3 : ¬ (wb ≠ 0 ∧ (0 : Nat) ≠ 0 ∧ (0 : Nat) ≠ wb) := by omega
    have hwne : wb ≠ 0 := by omega
    have hrne : ¬ ((0 : Nat) ≠ 0) := by omega
    refine ⟨(dataBit ||| (if lsbf then dataLSBF else 0)) ||| dataOut |||
        (if ew = .falling then dataOutFall else 0), ?_, ?_, ?_, ?_⟩
    · simp only [mpsseTxShort, if_neg hc1, if_neg hc2, if_neg hc3, if_pos hwne,
        if_neg hrne]
      have : byteOfInt ((wb : Int) - 1) = wb - 1 := by
        simp only [byteOfInt]; omega
      rw [this]
      rfl
    all_goals
      cases lsbf <;> cases ew <;> simp <;> decide
  · intro h
    have hc1 : wb ≠ 0 ∧ 8 < wb := by omega
    simp only [mpsseTxShort, if_pos hc1]

/-- C8 witness: the encoding theorem applied at concrete inputs: a 3-byte
full-duplex MSB-first transfer with output on the falling edge, and a 5-bit
short write. -/
theorem mpsse_shift_encoding_witness :
    (∃ op lo hi, mpsseTx [0xDE, 0xAD, 0xBE] [0, 0, 0] .falling .rising false =
        .ok (op :: lo :: hi :: [0xDE, 0xAD, 0xBE]) ∧
      lo + 256 * hi = 2 ∧
      (op &&& dataLSBF ≠ 0 ↔ false = true) ∧
      (op &&& dataOutFall ≠ 0 ↔ Edge.falling = Edge.falling) ∧
      (op &&& dataInFall ≠ 0 ↔ Edge.rising = Edge.falling) ∧
      op &&& dataBit = 0 ∧ op &&& dataOut ≠ 0 ∧ op &&& dataIn ≠ 0) ∧
    (∃ op, mpsseTxShort 0x15 5 0 .falling .rising false = .ok [op, 4, 0x15] ∧
      op &&& dataBit ≠ 0 ∧ (op &&& dataLSBF ≠ 0 ↔ false = true) ∧
      (op &&& dataOutFall ≠ 0 ↔ Edge.falling = Edge.falling)) :=
  ⟨(mpsse_shift_encoding [0xDE, 0xAD, 0xBE] [0, 0, 0] .falling .rising false 5 0x15).1
      (by decide) (by decide) (by decide),
   (mpsse_shift_encoding [0xDE, 0xAD, 0xBE] [0, 0, 0] .falling .rising false 5 0x15).2.2.2.1
      (by decide) (by decide)⟩

/-! ## I²C bus engine (i2c.go)

Pin assignment on the D bank: D0 = SCL, D1 = SDA out, D2 = SDA in. -/

/-- D0: SCL. -/
def D0 : Nat := 1
/-- D1: SDA/Out. -/
def D1 : Nat := 2
/-- D2: SDA/In. -/
def D2 : Nat := 4

/-- Cached state of the D bank (gpiosMPSSE.direction / .value). -/
structure DBusCache where
  direction : Nat
  value : Nat
deriving Repr, DecidableEq

/-- A gpioSetD frame as a (value byte, direction byte) pair; on the wire it is
rendered as the three bytes `gpioSetD, value, direction` (the order used by
i2c.go). -/
def renderGpioSetD (fs : List (Nat × Nat)) : List Nat :=
  fs.flatMap (fun p => [gpioSetD, p.1, p.2])

/-- `i2cBus.setI2CLinesIdle` (i2c.go lines 148-157):

```go
const mask = 0xFF &^ (D0 | D1 | D2)
d.f.dbus.direction = d.f.dbus.direction&mask | D0 | D1
d.f.dbus.value = d.f.dbus.value & mask
cmd := [...]byte{gpioSetD, d.f.dbus.value | D0 | D1, d.f.dbus.direction}
```
The Go `0xFF &^ (D0|D1|D2)` bit-clear of byte constants equals
`0xFF ^^^ (D0 ||| D1 ||| D2) = 0xF8`. -/
def setI2CLinesIdle (s : DBusCache) : DBusCache × List (Nat × Nat) :=
  let mask : Nat := 0xFF ^^^ (D0 ||| D1 ||| D2)
  let dir := s.direction &&& mask ||| D0 ||| D1
  let v := s.value &&& mask
  ({ direction := dir, value := v }, [(v ||| D0 ||| D1, dir)])

/-- `i2cBus.setI2CStart` (i2c.go lines 162-184): emits SCL-high/SDA-low four
times then SCL-low/SDA-low three times, without touching the cache. -/
def setI2CStart (s : DBusCache) : DBusCache × List (Nat × Nat) :=
  let dir := s.direction
  let v := s.value
  (s, [(v ||| D0, dir), (v ||| D0, dir), (v ||| D0, dir), (v ||| D0, dir),
       (v, dir), (v, dir), (v, dir)])

/-- `i2cBus.setI2CStop` (i2c.go lines 189-214): emits SCL-low/SDA-low,
SCL-high/SDA-low, then SCL-high/SDA-high, four frames each, without touching
the cache. -/
def setI2CStop (s : DBusCache) : DBusCache × List (Nat × Nat) :=
  let dir := s.direction
  let v := s.value
  (s, [(v, dir), (v, dir), (v, dir), (v, dir),
       (v ||| D0, dir), (v ||| D0, dir), (v ||| D0, dir), (v ||| D0, dir),
       (v ||| D0 ||| D1, dir), (v ||| D0 ||| D1, dir), (v ||| D0 ||| D1, dir),
       (v ||| D0 ||| D1, dir)])

/-- Bits at or above position 3 ignore ORed-in constants below 8. -/
theorem testBit_lor_low (v c n : Nat) (hc : c < 8) (h3 : 3 ≤ n) :
    (v ||| c).testBit n = v.testBit n := by
  have hcf : c.testBit n = false := by
    apply Nat.testBit_lt_two_pow
    calc c < 8 := hc
      _ = 2 ^ 3 := by norm_num
      _ ≤ 2 ^ n := Nat.pow_le_pow_right (by norm_num) h3
  simp [Nat.testBit_lor, hcf]

/-- Bits 3 to 7 pass through the 0xF8 mask. -/
theorem testBit_land_mask248 (v n : Nat) (h3 : 3 ≤ n) (h7 : n ≤ 7) :
    (v &&& 248).testBit n = v.testBit n := by
  have h248 : (248 : Nat).testBit n = true := by interval_cases n <;> decide
  simp [Nat.testBit_land, h248]

/-- C10: each of the three I²C bank-D framing operations modifies only pins
D0, D1, D2: for every bit position n with 3 ≤ n ≤ 7, the cached direction and
value bits are unchanged, and the value and direction bytes of every emitted
gpioSetD frame agree with the (pre-call) cache at bit n. -/
theorem i2c_framing_touches_only_D0_D2 (s : DBusCache) (n : Nat)
    (h3 : 3 ≤ n) (h7 : n ≤ 7) :
    ((setI2CLinesIdle s).1.direction.testBit n = s.direction.testBit n ∧
     (setI2CLinesIdle s).1.value.testBit n = s.value.testBit n ∧
     ∀ p ∈ (setI2CLinesIdle s).2,
       (p : Nat × Nat).1.testBit n = s.value.testBit n ∧
       p.2.testBit n = s.direction.testBit n) ∧
    ((setI2CStart s).1 = s ∧
     ∀ p ∈ (setI2CStart s).2,
       (p : Nat × Nat).1.testBit n = s.value.testBit n ∧
       p.2.testBit n = s.direction.testBit n) ∧
    ((setI2CStop s).1 = s ∧
     ∀ p ∈ (setI2CStop s).2,
       (p : Nat × Nat).1.testBit n = s.value.testBit n ∧
       p.2.testBit n = s.direction.testBit n) := by
  have hmask : (0xFF ^^^ (D0 ||| D1 ||| D2) : Nat) = 248 := by decide
  have hidleDir : ((s.direction &&& 248 ||| D0) ||| D1).testBit n =
      s.direction.testBit n := by
    rw [testBit_lor_low _ _ _ (by decide) h3, testBit_lor_low _ _ _ (by decide) h3,
      testBit_land_mask248 _ _ h3 h7]
  have hidleVal : (s.value &&& 248).testBit n = s.value.testBit n :=
    testBit_land_mask248 _ _ h3 h7
  have hidleValOr : ((s.value &&& 248 ||| D0) ||| D1).testBit n =
      s.value.testBit n := by
    rw [testBit_lor_low _ _ _ (by decide) h3, testBit_lor_low _ _ _ (by decide) h3,
      testBit_land_mask248 _ _ h3 h7]
  have hv0 : (s.value ||| D0).testBit n = s.value.testBit n :=
    testBit_lor_low _ _ _ (by decide) h3
  have hv01 : ((s.value ||| D0) ||| D1).testBit n = s.value.testBit n := by
    rw [testBit_lor_low _ _ _ (by decide) h3, hv0]
  refine ⟨⟨?_, ?_, ?_⟩, ⟨rfl, ?_⟩, ⟨rfl, ?_⟩⟩
  · simpa [setI2CLinesIdle, hmask] using hidleDir
  · simpa [setI2CLinesIdle, hmask] using hidleVal
  · intro p hp
    simp only [setI2CLinesIdle, hmask, List.mem_singleton] at hp
    subst hp
    exact ⟨hidleValOr, hidleDir⟩
  · intro p hp
    simp only [setI2CStart, List.mem_cons, List.not_mem_nil, or_false] at hp
    rcases hp with rfl | rfl | rfl | rfl | rfl | rfl | rfl <;>
      exact ⟨by simp [hv0, hv01], rfl⟩
  · intro p hp
    simp only [setI2CStop, List.mem_cons, List.not_mem_nil, or_false] at hp
    rcases hp with rfl | rfl | rfl | rfl | rfl | rfl | rfl | rfl | rfl | rfl |
      rfl | rfl <;> exact ⟨by simp [hv0, hv01], rfl⟩

/-- C10 witness: the framing theorem applied at a concrete cache state and
bit position (pin D5 with a representative cached pattern). -/
theorem i2c_framing_touches_only_D0_D2_witness :
    ((setI2CLinesIdle ⟨0xA5, 0x5A⟩).1.direction.testBit 5 =
       (0xA5 : Nat).testBit 5 ∧
     (setI2CLinesIdle ⟨0xA5, 0x5A⟩).1.value.testBit 5 = (0x5A : Nat).testBit 5 ∧
     ∀ p ∈ (setI2CLinesIdle ⟨0xA5, 0x5A⟩).2,
       (p : Nat × Nat).1.testBit 5 = (0x5A : Nat).testBit 5 ∧
       p.2.testBit 5 = (0xA5 : Nat).testBit 5) ∧
    ((setI2CStart ⟨0xA5, 0x5A⟩).1 = ⟨0xA5, 0x5A⟩ ∧
     ∀ p ∈ (setI2CStart ⟨0xA5, 0x5A⟩).2,
       (p : Nat × Nat).1.testBit 5 = (0x5A : Nat).testBit 5 ∧
       p.2.testBit 5 = (0xA5 : Nat).testBit 5) ∧
    ((setI2CStop ⟨0xA5, 0x5A⟩).1 = ⟨0xA5, 0x5A⟩ ∧
     ∀ p ∈ (setI2CStop ⟨0xA5, 0x5A⟩).2,
       (p : Nat × Nat).1.testBit 5 = (0x5A : Nat).testBit 5 ∧
       p.2.testBit 5 = (0xA5 : Nat).testBit 5) :=
  i2c_framing_touches_only_D0_D2 ⟨0xA5, 0x5A⟩ 5 (by decide) (by decide)

/-- `i2cBus.writeBytes` (i2c.go lines 219-252) over an abstract wire.  `dir`
and `v` are the cached D-bank direction and value; `resp` lists the bytes
returned by the one-bit acknowledgement reads, one per written byte.  For each
data byte the engine writes one command frame (shift the byte out on falling
clock edges, return the bus to idle, clock in one acknowledgement bit, flush)
then reads the acknowledgement byte `a`:

```go
if r[0]&1 == 0 {
    return errors.New("got NAK")
}
```

so the source aborts with "got NAK" when the sampled acknowledgement bit is
LOW and keeps clocking further bytes when it is HIGH.  Returns the emitted
frames and the error, if any. -/
def writeBytes (dir v : Nat) (w : List Nat) (resp : List Nat) :
    List (List Nat) × Option String :=
  match w with
  | [] => ([], none)
  | c :: cs =>
    let cmd := [dataOut ||| dataOutFall, 0, 0, c,
                gpioSetD, v ||| D0 ||| D1, dir,
                dataIn ||| dataBit, 0,
                flush]
    match resp with
    | [] => ([cmd], some "d2xx: read timeout")
    | a :: rest =>
      if a &&& 1 = 0 then ([cmd], some "got NAK")
      else
        let t := writeBytes dir v cs rest
        (cmd :: t.1, t.2)

/-- C2 (code bug): the acknowledgement sense is inverted in the source.  With
the acknowledgement bit sampled HIGH after every byte (NAK on the wire, per
the I²C convention the spec states), writeBytes clocks out all bytes and
reports success; with the bit sampled LOW (ACK on the wire), it aborts after
the first byte with "got NAK".  The claim (low = ACK, continue; high = NAK,
fail at the first NAK with no further bytes clocked) describes the intended
behaviour; the code does the opposite on both sides. -/
theorem writeBytes_ack_sense_inverted :
    ((writeBytes 0x03 0 [0x11, 0x22] [0x01, 0x01]).2 = none ∧
     (writeBytes 0x03 0 [0x11, 0x22] [0x01, 0x01]).1.length = 2) ∧
    ((writeBytes 0x03 0 [0x11, 0x22] [0x00, 0x00]).2 = some "got NAK" ∧
     (writeBytes 0x03 0 [0x11, 0x22] [0x00, 0x00]).1.length = 1) := by
  refine ⟨⟨?_, ?_⟩, ⟨?_, ?_⟩⟩ <;> decide

/-- The frames produced by setI2CLinesIdle render to exactly the byte
sequence of the source. -/
theorem setI2CLinesIdle_render (s : DBusCache) :
    renderGpioSetD (setI2CLinesIdle s).2 =
      [gpioSetD, (s.value &&& (0xFF ^^^ (D0 ||| D1 ||| D2))) ||| D0 ||| D1,
       s.direction &&& (0xFF ^^^ (D0 ||| D1 ||| D2)) ||| D0 ||| D1] := rfl

/-- The frames produced by setI2CStart render to exactly the byte sequence of
the source: four SCL-high/SDA-low frames then three SCL-low/SDA-low frames. -/
theorem setI2CStart_render (s : DBusCache) :
    renderGpioSetD (setI2CStart s).2 =
      [gpioSetD, s.value ||| D0, s.direction,
       gpioSetD, s.value ||| D0, s.direction,
       gpioSetD, s.value ||| D0, s.direction,
       gpioSetD, s.value ||| D0, s.direction,
       gpioSetD, s.value, s.direction,
       gpioSetD, s.value, s.direction,
       gpioSetD, s.value, s.direction] := rfl

/-- The frames produced by setI2CStop render to exactly the byte sequence of
the source: four each of SCL-low/SDA-low, SCL-high/SDA-low and
SCL-high/SDA-high. -/
theorem setI2CStop_render (s : DBusCache) :
    renderGpioSetD (setI2CStop s).2 =
      [gpioSetD, s.value, s.direction,
       gpioSetD, s.value, s.direction,
       gpioSetD, s.value, s.direction,
       gpioSetD, s.value, s.direction,
       gpioSetD, s.value ||| D0, s.direction,
       gpioSetD, s.value ||| D0, s.direction,
       gpioSetD, s.value ||| D0, s.direction,
       gpioSetD, s.value ||| D0, s.direction,
       gpioSetD, s.value ||| D0 ||| D1, s.direction,
       gpioSetD, s.value ||| D0 ||| D1, s.direction,
       gpioSetD, s.value ||| D0 ||| D1, s.direction,
       gpioSetD, s.value ||| D0 ||| D1, s.direction] := rfl

/-! ## Bus claim exclusivity on the FT232H handle (dev.go lines 378-412)

The FT232H struct keeps two booleans, usingI2C and usingSPI, guarded by the
device mutex; both open methods check them and return immediately (no
blocking or waiting is possible: the body is a pair of flag tests). -/

/-- The claim-relevant state of an FT232H handle. -/
structure BusClaims where
  usingI2C : Bool
  usingSPI : Bool
deriving Repr, DecidableEq

/-- `FT232H.I2C` (dev.go lines 378-392): fails if either bus is in use, else
setupI2C marks the I²C claim taken. -/
def openI2CBus (s : BusClaims) : Except String BusClaims :=
  if s.usingI2C then .error "d2xx: already using I²C"
  else if s.usingSPI then .error "d2xx: already using SPI"
  else .ok { s with usingI2C := true }

/-- `FT232H.SPI` (dev.go lines 400-412): fails if either bus is in use; the
SPI claim itself is only marked at Connect time. -/
def openSPIPort (s : BusClaims) : Except String BusClaims :=
  if s.usingI2C then .error "d2xx: already using I²C"
  else if s.usingSPI then .error "d2xx: already using SPI"
  else .ok s

/-- `i2cBus.stopI2C` (i2c.go lines 133-143), called from Close: writes the
reset commands (back to 2-phase clocking, tristate off, 30MHz divisor 1) and
clears the I²C claim. -/
def stopI2CBus (s : BusClaims) : BusClaims × List Nat :=
  ({ s with usingI2C := false },
   [clock2Phase, dataTristate, 0, 0, clock30MHz, 0, 0])

/-- C5: opening SPI while I²C is open fails with an exclusivity error; opening
I²C while either bus is open fails; after closing the I²C bus, a subsequent
SPI open on the same handle succeeds.  All three paths are pure flag checks:
they return at once, never blocking. -/
theorem bus_claim_exclusivity (s : BusClaims) :
    (s.usingI2C = true → openSPIPort s = .error "d2xx: already using I²C") ∧
    (s.usingI2C = true ∨ s.usingSPI = true → ∃ e, openI2CBus s = .error e) ∧
    (s.usingSPI = false →
      openSPIPort (stopI2CBus s).1 = .ok (stopI2CBus s).1) := by
  obtain ⟨i, p⟩ := s
  cases i <;> cases p <;> simp [openSPIPort, openI2CBus, stopI2CBus]

/-- C5 witness: the exclusivity theorem applied to the handle state where I²C
is open and SPI is not. -/
theorem bus_claim_exclusivity_witness :
    openSPIPort ⟨true, false⟩ = .error "d2xx: already using I²C" ∧
    (∃ e, openI2CBus ⟨true, false⟩ = .error e) ∧
    openSPIPort (stopI2CBus ⟨true, false⟩).1 = .ok (stopI2CBus ⟨true, false⟩).1 :=
  ⟨(bus_claim_exclusivity ⟨true, false⟩).1 (by decide),
   (bus_claim_exclusivity ⟨true, false⟩).2.1 (Or.inl (by decide)),
   (bus_claim_exclusivity ⟨true, false⟩).2.2 (by decide)⟩

/-! ## MPSSE bring-up verification: device.setupMPSSE (mpsse.go lines 159-208)

```go
func (d *device) setupMPSSE() error {
    if err := d.setBitMode(0, 2); err != nil { return err }
    for _, v := range []byte{0xAA, 0xAB} {
        if _, err := d.write([]byte{v}); err != nil { return err }
        var b [2]byte
        success := false
        for start := time.Now(); time.Since(start) < 200*time.Millisecond; {
            if n, err := d.read(b[:]); err != nil { return err }
            else if n == 0 { time.Sleep(100 * time.Microsecond); continue }
            if b[0] != 0xFA || b[1] != v { return toErr("SetupMPSSE", 4) }
            success = true
            break
        }
        if !success { return fmt.Errorf("d2xx: I/O failure while trying to setup MPSSE: %v", b[:]) }
    }
    cmd := []byte{ clock30MHz, clockNormal, clock2Phase, internalLoopbackDisable,
        gpioSetC, 0xFF, 0x00, gpioSetD, 0xFF, 0x00 }
    ...
}
```

The wall-clock-bounded poll (at most 200ms per byte, sleeping between empty
reads) is abstracted to at most one device reply per written bad command: the
loop exits on the first nonempty read, and an exhausted reply list models the
200ms timeout.  The concluding initialization write of the success path is
not modelled; no claim depends on it. -/

/-- One verification step: the engine echo for bad command `v` must be
`[0xFA, v]`; a missing reply is the poll timeout. -/
def verifyBadCommandEcho (v : Nat) (reply : Option (Nat × Nat)) :
    Except String Unit :=
  match reply with
  | none => .error "d2xx: I/O failure while trying to setup MPSSE"
  | some (b0, b1) => if b0 = 0xFA ∧ b1 = v then .ok () else .error "SetupMPSSE"

/-- `device.setupMPSSE` over the abstract reply stream: verifies the echo of
the two bad commands 0xAA then 0xAB, aborting at the first failure.  Returns
the result and the number of bad-command verification bytes written.  There is
no retry of any kind: on failure the open attempt is reported unusable
immediately. -/
def setupMPSSE (replies : List (Nat × Nat)) : Except String Unit × Nat :=
  match verifyBadCommandEcho 0xAA replies.head? with
  | .error e => (.error e, 1)
  | .ok _ =>
    match verifyBadCommandEcho 0xAB (replies.drop 1).head? with
    | .error e => (.error e, 2)
    | .ok _ => (.ok (), 2)

/-- C3 counterexample: the first verification echo is corrupted while a
corrected second attempt is available in the reply stream; the claim predicts
one full reset-reconfigure-verify retry consuming the remaining replies and a
usable device, but setupMPSSE fails immediately after the single corrupted
verification byte: no retry is attempted. -/
theorem setupMPSSE_no_retry_counterexample :
    setupMPSSE [(0xFA, 0x00), (0xFA, 0xAA), (0xFA, 0xAB)] =
      (.error "SetupMPSSE", 1) := rfl

/-- C3 (amended): setupMPSSE performs a single verification attempt, writing
at most the two bad-command bytes and never retrying: it succeeds exactly when
the first attempt's replies start with the correct echoes [0xFA, 0xAA] then
[0xFA, 0xAB], and any echo timeout or mismatch makes this open attempt fail
immediately (the poll for each byte is bounded, abstracted here to one reply
per byte). -/
theorem setupMPSSE_single_attempt (replies : List (Nat × Nat)) :
    (setupMPSSE replies).2 ≤ 2 ∧
    ((setupMPSSE replies).1 = .ok () ↔
      ∃ rest, replies = (0xFA, 0xAA) :: (0xFA, 0xAB) :: rest) := by
  match replies with
  | [] => exact ⟨by decide, by simp [setupMPSSE, verifyBadCommandEcho]⟩
  | (b0, b1) :: rest =>
    by_cases h1 : b0 = 0xFA ∧ b1 = 0xAA
    · obtain ⟨rfl, rfl⟩ := h1
      match rest with
      | [] =>
        exact ⟨by decide, by simp [setupMPSSE, verifyBadCommandEcho]⟩
      | (c0, c1) :: rest2 =>
        by_cases h2 : c0 = 0xFA ∧ c1 = 0xAB
        · obtain ⟨rfl, rfl⟩ := h2
          refine ⟨by simp [setupMPSSE, verifyBadCommandEcho], ?_⟩
          simp [setupMPSSE, verifyBadCommandEcho]
        · refine ⟨?_, ?_⟩ <;>
            simp [setupMPSSE, verifyBadCommandEcho, h2]
    · refine ⟨?_, ?_⟩ <;> simp [setupMPSSE, verifyBadCommandEcho, h1]

/-! ## FT232R.Tx chunking (dev.go lines 599-627)

```go
func (f *FT232R) Tx(w, r []byte) error {
    if len(w) != len(r) { return errors.New("d2xx: length of buffer w and r must match") }
    ...
    const chunk = 64
    for len(w) != 0 {
        c := len(w)
        if c > chunk { c = chunk }
        if _, err := f.h.write(w[:c]); err != nil { return err }
        if _, err := f.h.read(r[:c]); err != nil { return err }
        w = w[c:]
        r = w[c:]
    }
    return nil
}
```

Note the last statement of the loop body: `r = w[c:]` reslices r from the
already-advanced w instead of advancing r.  The model tracks the slice
bookkeeping; transport writes and reads always succeed and only the slicing
behaviour matters.  Go slicing `s[c:]` panics when `c > len(s)`.  The fuel
argument only bounds iteration count; `fuel = len(w)` is always sufficient
because each iteration shortens w by at least one byte. -/

/-- The chunk loop of FT232R.Tx. -/
def ft232rTxLoop (fuel : Nat) (w r : List Nat) : GoOutcome Unit :=
  match fuel with
  | 0 => .ok ()
  | fuel + 1 =>
    if w.length = 0 then .ok ()
    else
      let c := min w.length 64
      if r.length < c then .panic          -- r[:c] out of range
      else
        let w2 := w.drop c                 -- w = w[c:]
        if w2.length < c then .panic       -- r = w[c:] on the advanced w
        else ft232rTxLoop fuel w2 (w2.drop c)

/-- `FT232R.Tx`. -/
def ft232rTx (w r : List Nat) : GoOutcome Unit :=
  if w.length ≠ r.length then .err "d2xx: length of buffer w and r must match"
  else ft232rTxLoop w.length w r

/-- C9 (code bug): for equal-length buffers the claim says every chunk lands
in r with no slice operation out of range, in particular for buffers longer
than 64 bytes.  Because the loop ends with `r = w[c:]` instead of `r = r[c:]`,
a 65-byte transfer panics (after the first 64-byte chunk, w has 1 byte left
and reslicing it at 64 is out of range), and even a 1-byte transfer panics
(reslicing the emptied w at 1). -/
theorem ft232rTx_reslice_panics :
    ft232rTx (List.replicate 65 0) (List.replicate 65 0) = .panic ∧
    ft232rTx [0xAB] [0x00] = .panic := by
  refine ⟨?_, ?_⟩ <;> decide

/-! ## Simple-tier SPI engine: spiSyncConn.TxPackets (spi.go lines 427-549)

On the FT232R synchronous bit-bang port, pin bit 0 is MOSI (TX), bit 1 is
MISO (RX), bit 2 is the clock (RTS) and bit 3 is chip select (CTS).  Each SPI
bit is expanded into two bit-bang frames:

```go
csActive := s.f.dvalue & s.f.dmask & 0xF0
csIdle := csActive
if !s.noCS { csIdle = csActive | cs }
clkIdle := csActive
clkActive := clkIdle | clk
if s.clkActiveLow {
    clkActive, clkIdle = clkIdle, clkActive
    csIdle |= clk
}
we = append(we, csIdle, clkIdle, clkIdle, clkIdle, clkIdle)
for _, b := range p.W {
    for j := uint(0); j < 8; j++ {
        bit := byte(0)
        if !s.lsbFirst { if b&(0x80>>j) != 0 { bit = mosi } }
        else           { if b&(1<<j) != 0 { bit = mosi } }
        if !s.edgeInvert { we = append(we, clkIdle|bit, clkActive|bit) }
        else             { we = append(we, clkActive|bit, clkIdle|bit) }
    }
}
we = append(we, clkIdle, clkIdle, clkIdle, clkIdle, csIdle)
```

and the response buffer is decoded back in the same stride:

```go
for i := range p.R {
    b := byte(0)
    for j := 0; j < 8; j++ {
        if re[5+i*8*2+j*2+1]&byte(1)<<1 != 0 {
            if !s.lsbFirst { b |= 0x80 >> uint(j) } else { b |= 1 << uint(j) }
        }
    }
    p.R[i] = b
}
```

The model covers one packet with equal-length write and read buffers (the
full-duplex byte-sequence round trip the claim states).  The parallel-swap
of clkActive/clkIdle is written as conditional bindings with the same
values. -/

/-- The two bit-bang frames for bit j of byte b (the body of the inner loop):
the data bit is held constant across the clock-idle and clock-active frame,
whose order depends on the clock phase. -/
def spiBitFrames (lsbFirst edgeInvert : Bool) (clkIdle clkActive b j : Nat) :
    List Nat :=
  let mosi : Nat := 1
  let bit : Nat :=
    if !lsbFirst then (if b &&& (0x80 >>> j) ≠ 0 then mosi else 0)
    else (if b &&& (1 <<< j) ≠ 0 then mosi else 0)
  if !edgeInvert then [clkIdle ||| bit, clkActive ||| bit]
  else [clkActive ||| bit, clkIdle ||| bit]

/-- The 16 bit-bang frames of one byte (8 bits, two frames per bit). -/
def spiByteFrames (lsbFirst edgeInvert : Bool) (clkIdle clkActive b : Nat) :
    List Nat :=
  (List.range 8).flatMap (spiBitFrames lsbFirst edgeInvert clkIdle clkActive b)

/-- The full frame stream written for one packet: 5 chip-select/idle lead-in
frames, 16 frames per byte, then 5 idle/deassert frames. -/
def spiSyncEncode (noCS clkActiveLow lsbFirst edgeInvert : Bool)
    (dvalue dmask : Nat) (w : List Nat) : List Nat :=
  let cs : Nat := 8
  let clk : Nat := 4
  let csActive := dvalue &&& dmask &&& 0xF0
  let csIdle0 := if noCS then csActive else csActive ||| cs
  let clkIdle0 := csActive
  let clkActive0 := clkIdle0 ||| clk
  let clkIdle := if clkActiveLow then clkActive0 else clkIdle0
  let clkActive := if clkActiveLow then clkIdle0 else clkActive0
  let csIdle := if clkActiveLow then csIdle0 ||| clk else csIdle0
  [csIdle, clkIdle, clkIdle, clkIdle, clkIdle]
    ++ w.flatMap (spiByteFrames lsbFirst edgeInvert clkIdle clkActive)
    ++ [clkIdle, clkIdle, clkIdle, clkIdle, csIdle]

/-- One decoded byte: MISO (bit 1) of the sampled frame at the configured
capture phase of each 2-frame stride, reassembled in the configured bit
order. -/
def spiSyncDecodeByte (lsbFirst : Bool) (re : List Nat) (i : Nat) : Nat :=
  (List.range 8).foldl (fun b j =>
    if re.getD (5 + i * 8 * 2 + j * 2 + 1) 0 &&& (1 <<< 1) ≠ 0 then
      b ||| (if !lsbFirst then 0x80 >>> j else 1 <<< j)
    else b) 0

/-- The decoded read buffer of one packet of n bytes. -/
def spiSyncDecode (lsbFirst : Bool) (re : List Nat) (n : Nat) : List Nat :=
  (List.range n).map (spiSyncDecodeByte lsbFirst re)

/-- The sampled-frame sequence corresponding to a written frame stream: the
peer mirrors the driven MOSI level (bit 0) back on MISO (bit 1) at every
sample; the data bit is held constant across both frames of a bit, so this
matches sampling at either capture edge. -/
def sampleWire (we : List Nat) : List Nat :=
  we.map (fun f => (f &&& 1) <<< 1)

/-- The data bit the encoder drives for bit j of byte b: 1 or 0. -/
def byteBit (lsbFirst : Bool) (b j : Nat) : Nat :=
  if !lsbFirst then (if b &&& (0x80 >>> j) ≠ 0 then 1 else 0)
  else (if b &&& (1 <<< j) ≠ 0 then 1 else 0)

theorem land_lor_distrib (a b c : Nat) :
    (a ||| b) &&& c = (a &&& c) ||| (b &&& c) := by
  apply Nat.eq_of_testBit_eq
  intro i
  simp [Nat.testBit_lor, Nat.testBit_land, Bool.and_or_distrib_right]

theorem lor_and_one (x bit : Nat) (hx : x &&& 1 = 0) (hb : bit ≤ 1) :
    (x ||| bit) &&& 1 = bit := by
  rw [land_lor_distrib, hx]
  have h1 : bit &&& 1 = bit := by
    rw [Nat.and_one_is_mod]
    omega
  rw [h1]
  apply Nat.eq_of_testBit_eq
  intro i
  simp [Nat.testBit_lor]

theorem sampleWire_getD (we : List Nat) (k : Nat) :
    (sampleWire we).getD k 0 = ((we.getD k 0) &&& 1) <<< 1 := by
  induction we generalizing k with
  | nil => simp [sampleWire]
  | cons a t ih =>
    cases k with
    | zero => simp [sampleWire]
    | succ k => simpa [sampleWire] using ih k

theorem flatMap_const_length (f : Nat → List Nat) (L : Nat)
    (hL : ∀ b, (f b).length = L) (w : List Nat) :
    (w.flatMap f).length = w.length * L := by
  induction w with
  | nil => simp
  | cons a t ih => simp [List.flatMap_cons, ih, hL, Nat.succ_mul, Nat.add_comm]

theorem flatMap_const_length_getD (f : Nat → List Nat) (L : Nat)
    (hL : ∀ b, (f b).length = L) (w : List Nat) (i m : Nat)
    (hi : i < w.length) (hm : m < L) :
    (w.flatMap f).getD (i * L + m) 0 = (f (w.getD i 0)).getD m 0 := by
  induction w generalizing i with
  | nil => simp at hi
  | cons a t ih =>
    cases i with
    | zero =>
      rw [List.flatMap_cons, Nat.zero_mul, Nat.zero_add,
        List.getD_append _ _ _ _ (by rw [hL]; exact hm), List.getD_cons_zero]
    | succ i =>
      have hidx : (i + 1) * L + m = L + (i * L + m) := by ring
      rw [List.flatMap_cons, hidx, List.getD_append_right _ _ _ _ (by rw [hL]; omega)]
      have hsub : L + (i * L + m) - (f a).length = i * L + m := by rw [hL]; omega
      rw [hsub, List.getD_cons_succ]
      exact ih i (by simpa using hi)

theorem spiBitFrames_length (l e : Bool) (ci ca b j : Nat) :
    (spiBitFrames l e ci ca b j).length = 2 := by
  cases e <;> simp [spiBitFrames]

theorem spiByteFrames_length (l e : Bool) (ci ca b : Nat) :
    (spiByteFrames l e ci ca b).length = 16 := by
  have h := flatMap_const_length (spiBitFrames l e ci ca b) 2
    (fun j => spiBitFrames_length l e ci ca b j) (List.range 8)
  simpa [spiByteFrames] using h

theorem spiBitFrames_getD_one (l e : Bool) (ci ca b j : Nat) :
    (spiBitFrames l e ci ca b j).getD 1 0 =
      (if e then ci else ca) ||| byteBit l b j := by
  cases e <;> simp [spiBitFrames, byteBit]

theorem spiByteFrames_getD_odd (l e : Bool) (ci ca b j : Nat) (hj : j < 8) :
    (spiByteFrames l e ci ca b).getD (j * 2 + 1) 0 =
      (if e then ci else ca) ||| byteBit l b j := by
  have h := flatMap_const_length_getD (spiBitFrames l e ci ca b) 2
    (fun x => spiBitFrames_length l e ci ca b x) (List.range 8) j 1
    (by simpa using hj) (by omega)
  have hrange : (List.range 8).getD j 0 = j := by
    rw [List.getD_eq_getElem _ _ (by simpa using hj)]
    exact List.getElem_range _ _
  rw [spiByteFrames, h, hrange, spiBitFrames_getD_one]

theorem byteBit_le_one (l : Bool) (b j : Nat) : byteBit l b j ≤ 1 := by
  cases l <;> simp [byteBit] <;> split <;> omega

/-- Reading the sampled stream at the capture index of bit j of byte i yields
exactly the data bit driven for that byte, shifted to the MISO position. -/
theorem sampled_data_bit (l e : Bool) (ci ca csIdle : Nat)
    (hci : ci &&& 1 = 0) (hca : ca &&& 1 = 0) (w : List Nat) (i j : Nat)
    (hi : i < w.length) (hj : j < 8) :
    (sampleWire ([csIdle, ci, ci, ci, ci] ++
        w.flatMap (spiByteFrames l e ci ca) ++
        [ci, ci, ci, ci, csIdle])).getD (5 + i * 8 * 2 + j * 2 + 1) 0 =
      byteBit l (w.getD i 0) j <<< 1 := by
  rw [sampleWire_getD, List.append_assoc]
  have hidx : 5 + i * 8 * 2 + j * 2 + 1 = 5 + (i * 16 + (j * 2 + 1)) := by ring
  rw [hidx, List.getD_append_right _ _ _ _ (by simp)]
  have hsub : 5 + (i * 16 + (j * 2 + 1)) -
      ([csIdle, ci, ci, ci, ci] : List Nat).length = i * 16 + (j * 2 + 1) := by
    simp
  rw [hsub]
  have hblen : (w.flatMap (spiByteFrames l e ci ca)).length = w.length * 16 :=
    flatMap_const_length _ 16 (fun b => spiByteFrames_length l e ci ca b) w
  rw [List.getD_append _ _ _ _ (by rw [hblen]; omega)]
  rw [flatMap_const_length_getD _ 16 (fun b => spiByteFrames_length l e ci ca b)
    w i (j * 2 + 1) hi (by omega)]
  rw [spiByteFrames_getD_odd l e ci ca _ j hj]
  have hx : (if e then ci else ca) &&& 1 = 0 := by
    cases e with
    | false => simpa using hca
    | true => simpa using hci
  rw [lor_and_one _ _ hx (byteBit_le_one l _ j)]

set_option maxRecDepth 20000 in
/-- Reassembling the 8 driven data bits in the same bit order reproduces the
byte, for all 256 byte values and both bit orders. -/
theorem byteFold_eq (l : Bool) (b : Nat) (hb : b < 256) :
    (List.range 8).foldl (fun acc j =>
      if byteBit l b j = 1 then acc ||| (if !l then 0x80 >>> j else 1 <<< j)
      else acc) 0 = b := by
  have h : ∀ x : Fin 256, ∀ l : Bool,
      (List.range 8).foldl (fun acc j =>
        if byteBit l x.val j = 1 then
          acc ||| (if !l then 0x80 >>> j else 1 <<< j)
        else acc) 0 = x.val := by decide
  exact h ⟨b, hb⟩ l

/-- Decoding byte i of the sampled stream of a structured frame list yields
the i-th written byte. -/
theorem spiSyncDecodeByte_structured (l e : Bool) (ci ca csIdle : Nat)
    (hci : ci &&& 1 = 0) (hca : ca &&& 1 = 0) (w : List Nat) (i : Nat)
    (hi : i < w.length) (hb : w.getD i 0 < 256) :
    spiSyncDecodeByte l (sampleWire ([csIdle, ci, ci, ci, ci] ++
        w.flatMap (spiByteFrames l e ci ca) ++ [ci, ci, ci, ci, csIdle])) i =
      w.getD i 0 := by
  unfold spiSyncDecodeByte
  refine (List.foldl_ext _ (fun acc j =>
      if byteBit l (w.getD i 0) j = 1 then
        acc ||| (if !l then 0x80 >>> j else 1 <<< j)
      else acc) 0 ?_).trans (byteFold_eq l _ hb)
  intro acc j hj
  have hj8 : j < 8 := by simpa using hj
  rw [sampled_data_bit l e ci ca csIdle hci hca w i j hi hj8]
  refine if_congr ?_ rfl rfl
  rcases Nat.le_one_iff_eq_zero_or_eq_one.mp (byteBit_le_one l (w.getD i 0) j)
    with h0 | h1
  · rw [h0]; decide
  · rw [h1]; decide

/-- Decoding the sampled stream of a structured frame list yields the written
byte sequence. -/
theorem spiSyncDecode_structured (l e : Bool) (ci ca csIdle : Nat)
    (hci : ci &&& 1 = 0) (hca : ca &&& 1 = 0) (w : List Nat)
    (hw : ∀ b ∈ w, b < 256) :
    spiSyncDecode l (sampleWire ([csIdle, ci, ci, ci, ci] ++
      w.flatMap (spiByteFrames l e ci ca) ++ [ci, ci, ci, ci, csIdle]))
      w.length = w := by
  apply List.ext_getElem
  · simp [spiSyncDecode]
  · intro i h1 h2
    simp only [spiSyncDecode, List.getElem_map, List.getElem_range]
    have hi : i < w.length := h2
    have hgd : w.getD i 0 = w[i] := List.getD_eq_getElem _ _ hi
    have hb : w.getD i 0 < 256 := by
      rw [hgd]; exact hw _ (List.getElem_mem hi)
    rw [spiSyncDecodeByte_structured l e ci ca csIdle hci hca w i hi hb, hgd]

/-- The encoder output always has the lead-in/lead-out structure, with both
clock levels having a zero MOSI bit. -/
theorem spiSyncEncode_structure (noCS cal l e : Bool) (dvalue dmask : Nat)
    (w : List Nat) :
    ∃ ci ca csIdle,
      spiSyncEncode noCS cal l e dvalue dmask w =
        [csIdle, ci, ci, ci, ci] ++ w.flatMap (spiByteFrames l e ci ca) ++
          [ci, ci, ci, ci, csIdle] ∧
      ci &&& 1 = 0 ∧ ca &&& 1 = 0 := by
  have hcs : (dvalue &&& dmask &&& 0xF0) &&& 1 = 0 := by
    rw [Nat.and_assoc]
    have h1 : (0xF0 : Nat) &&& 1 = 0 := by decide
    rw [h1, Nat.and_zero]
  have h4 : ((dvalue &&& dmask &&& 0xF0) ||| 4) &&& 1 = 0 := by
    rw [land_lor_distrib, hcs]
    decide
  cases cal with
  | false =>
    exact ⟨dvalue &&& dmask &&& 0xF0, (dvalue &&& dmask &&& 0xF0) ||| 4,
      (if noCS then dvalue &&& dmask &&& 0xF0
       else (dvalue &&& dmask &&& 0xF0) ||| 8),
      rfl, hcs, h4⟩
  | true =>
    exact ⟨(dvalue &&& dmask &&& 0xF0) ||| 4, dvalue &&& dmask &&& 0xF0,
      ((if noCS then dvalue &&& dmask &&& 0xF0
        else (dvalue &&& dmask &&& 0xF0) ||| 8) ||| 4),
      rfl, h4, hcs⟩

/-- C4: for the simple-tier SPI engine, encoding any byte sequence into the
bitbang frame stream produces two frames per bit (16 per byte) plus the 10
fixed chip-select/idle frames, and decoding the corresponding sampled-frame
sequence (MISO mirroring the driven MOSI level) with the same bit order and
capture edge reproduces the original bytes, for all 256 byte values, both bit
orders, and every mode and chip-select configuration. -/
theorem spiSync_bitbang_roundTrip (noCS cal lsb ei : Bool)
    (dvalue dmask : Nat) (w : List Nat) (hw : ∀ b ∈ w, b < 256) :
    (spiSyncEncode noCS cal lsb ei dvalue dmask w).length =
      16 * w.length + 10 ∧
    spiSyncDecode lsb
      (sampleWire (spiSyncEncode noCS cal lsb ei dvalue dmask w))
      w.length = w := by
  obtain ⟨ci, ca, csIdle, henc, hci, hca⟩ :=
    spiSyncEncode_structure noCS cal lsb ei dvalue dmask w
  constructor
  · rw [henc]
    have hblen : (w.flatMap (spiByteFrames lsb ei ci ca)).length =
        w.length * 16 :=
      flatMap_const_length _ 16 (fun b => spiByteFrames_length lsb ei ci ca b) w
    simp [hblen]
    ring
  · rw [henc]
    exact spiSyncDecode_structured lsb ei ci ca csIdle hci hca w hw

/-- C4 witness: the round-trip theorem applied to the concrete byte sequence
[0xA5, 0x3C] in LSB-first order with inverted capture edge, active-low clock
and chip select in use. -/
theorem spiSync_bitbang_roundTrip_witness :
    (spiSyncEncode false true true true 0xFF 0xF0 [0xA5, 0x3C]).length =
      16 * 2 + 10 ∧
    spiSyncDecode true
      (sampleWire (spiSyncEncode false true true true 0xFF 0xF0 [0xA5, 0x3C]))
      2 = [0xA5, 0x3C] :=
  spiSync_bitbang_roundTrip false true true true 0xFF 0xF0 [0xA5, 0x3C]
    (by decide)

end D2xx
